import Mathlib

/-!
# Verification of the bloom diagram repository's geometric formulas and UI hook

This file embeds, in Lean 4, the parts of the `jiwonMe/bloom` repository that
carry actual logic:

* the symbolic scalar-expression trees built through the external engine's
  operations (`bloom.add`, `bloom.sub`, `bloom.mul`, `bloom.div`, `bloom.sqrt`)
  together with an evaluator over the reals and a well-definedness predicate;
* the circumcircle construction of `src/diagrams/geometry/styles.ts`
  (the `DrawCircumcircle` style rule);
* the eigenspace-line construction of the eigenvector diagram module
  (`el1` / `el2`);
* the `On` relation facts of the geometry diagram's substance
  (`src/diagrams/geometry/substance.ts`);
* the `useDiagram` React hook (build lifecycle, cancellation flag, stale-result
  suppression), modelled as a step function over externally observable events.
-/

/-! ## Symbolic expression trees

The diagram scripts build computation graphs by calling the external engine's
scalar operations.  `Expr V` is the tree so built: `V` is the type of input
slots (the coordinates the optimizer later supplies), and the constructors
mirror the engine operations the repository uses. -/

/-- A symbolic scalar expression, as constructed by the diagram scripts through
`bloom.add`, `bloom.sub`, `bloom.mul`, `bloom.div`, `bloom.sqrt`, numeric
literals, and references to input coordinates. -/
inductive Expr (V : Type) : Type
  | const : ℚ → Expr V
  | var : V → Expr V
  | add : Expr V → Expr V → Expr V
  | sub : Expr V → Expr V → Expr V
  | mul : Expr V → Expr V → Expr V
  | div : Expr V → Expr V → Expr V
  | sqrt : Expr V → Expr V

/-- Evaluation of an expression tree over the reals, given values for the
input slots.  Division and square root use Lean's total conventions
(`x / 0 = 0`, `Real.sqrt x = 0` for `x < 0`); the separate predicate
`Expr.WF` singles out the evaluations on which those conventions are never
exercised. -/
noncomputable def Expr.eval (env : V → ℝ) : Expr V → ℝ
  | .const q => (q : ℝ)
  | .var v => env v
  | .add e₁ e₂ => e₁.eval env + e₂.eval env
  | .sub e₁ e₂ => e₁.eval env - e₂.eval env
  | .mul e₁ e₂ => e₁.eval env * e₂.eval env
  | .div e₁ e₂ => e₁.eval env / e₂.eval env
  | .sqrt e => Real.sqrt (e.eval env)

/-- An expression evaluates to a well-defined finite real under `env` when no
division has a zero divisor and no square root has a negative argument
(the situations in which the engine's floating-point evaluation produces
`Infinity`/`NaN`). -/
def Expr.WF (env : V → ℝ) : Expr V → Prop
  | .const _ => True
  | .var _ => True
  | .add e₁ e₂ => e₁.WF env ∧ e₂.WF env
  | .sub e₁ e₂ => e₁.WF env ∧ e₂.WF env
  | .mul e₁ e₂ => e₁.WF env ∧ e₂.WF env
  | .div e₁ e₂ => e₁.WF env ∧ e₂.WF env ∧ e₂.eval env ≠ 0
  | .sqrt e => e.WF env ∧ 0 ≤ e.eval env

/-- Modelled from the spec: the external engine's `bloom.ops.vdist`, the
Euclidean distance between two 2-D points, expressed as a tree over the same
scalar operations.  The operation itself lives in the external library; the
spec describes it as the standard distance. -/
def vdistE (px py qx qy : Expr V) : Expr V :=
  .sqrt (.add (.mul (.sub px qx) (.sub px qx)) (.mul (.sub py qy) (.sub py qy)))

/-- Modelled from the spec: the external engine's `bloom.ops.vnormalize`,
dividing each component of a 2-D vector by the vector's Euclidean norm.
The operation itself lives in the external library; the spec describes it as
the standard normalization. -/
def vnormalizeE (ex ey : Expr V) : Expr V × Expr V :=
  (.div ex (.sqrt (.add (.mul ex ex) (.mul ey ey))),
   .div ey (.sqrt (.add (.mul ex ex) (.mul ey ey))))

/-! ## The circumcircle rule (`src/diagrams/geometry/styles.ts`)

The `DrawCircumcircle` style rule reads the three point centers
`(x1,y1), (x2,y2), (x3,y3)` and builds `d`, `ux`, `uy` and the radius with
the exact operation nesting below. -/

namespace Circumcircle

variable {V : Type}

/-- `d = bloom.mul(2, bloom.add(bloom.mul(x1, y2-y3), bloom.add(bloom.mul(x2, y3-y1), bloom.mul(x3, y1-y2))))`. -/
def dE (x1 y1 x2 y2 x3 y3 : Expr V) : Expr V :=
  .mul (.const 2)
    (.add (.mul x1 (.sub y2 y3))
      (.add (.mul x2 (.sub y3 y1))
        (.mul x3 (.sub y1 y2))))

/-- The numerator of `ux` as built in the source. -/
def uxNumE (x1 y1 x2 y2 x3 y3 : Expr V) : Expr V :=
  .add (.mul (.add (.mul x1 x1) (.mul y1 y1)) (.sub y2 y3))
    (.add (.mul (.add (.mul x2 x2) (.mul y2 y2)) (.sub y3 y1))
      (.mul (.add (.mul x3 x3) (.mul y3 y3)) (.sub y1 y2)))

/-- `ux = bloom.div(uxNum, d)` — a bare division by `d`, with no guard. -/
def uxE (x1 y1 x2 y2 x3 y3 : Expr V) : Expr V :=
  .div (uxNumE x1 y1 x2 y2 x3 y3) (dE x1 y1 x2 y2 x3 y3)

/-- The numerator of `uy` as built in the source. -/
def uyNumE (x1 y1 x2 y2 x3 y3 : Expr V) : Expr V :=
  .add (.mul (.add (.mul x1 x1) (.mul y1 y1)) (.sub x3 x2))
    (.add (.mul (.add (.mul x2 x2) (.mul y2 y2)) (.sub x1 x3))
      (.mul (.add (.mul x3 x3) (.mul y3 y3)) (.sub x2 x1)))

/-- `uy = bloom.div(uyNum, d)` — a bare division by `d`, with no guard. -/
def uyE (x1 y1 x2 y2 x3 y3 : Expr V) : Expr V :=
  .div (uyNumE x1 y1 x2 y2 x3 y3) (dE x1 y1 x2 y2 x3 y3)

/-- `circumradius = bloom.ops.vdist(circumcenter, p.icon.center)` — the
distance from `(ux, uy)` to the first input point. -/
def circumradiusE (x1 y1 x2 y2 x3 y3 : Expr V) : Expr V :=
  vdistE (uxE x1 y1 x2 y2 x3 y3) (uyE x1 y1 x2 y2 x3 y3) x1 y1

end Circumcircle

/-- Three points are collinear exactly when the cross product of the two edge
vectors vanishes. -/
def collinearPts (x1 y1 x2 y2 x3 y3 : ℝ) : Prop :=
  (x2 - x1) * (y3 - y1) = (x3 - x1) * (y2 - y1)

namespace Circumcircle

/-- The cross-product sum `x1·(y2−y3) + x2·(y3−y1) + x3·(y1−y2)` is, up to
sign, the collinearity cross product. -/
theorem dE_eval {V : Type} (env : V → ℝ) (x1 y1 x2 y2 x3 y3 : Expr V) :
    (dE x1 y1 x2 y2 x3 y3).eval env =
      2 * (x1.eval env * (y2.eval env - y3.eval env) +
           x2.eval env * (y3.eval env - y1.eval env) +
           x3.eval env * (y1.eval env - y2.eval env)) := by
  simp [dE, Expr.eval]
  ring

theorem uxE_eval {V : Type} (env : V → ℝ) (x1 y1 x2 y2 x3 y3 : Expr V) :
    (uxE x1 y1 x2 y2 x3 y3).eval env =
      ((x1.eval env ^ 2 + y1.eval env ^ 2) * (y2.eval env - y3.eval env) +
       (x2.eval env ^ 2 + y2.eval env ^ 2) * (y3.eval env - y1.eval env) +
       (x3.eval env ^ 2 + y3.eval env ^ 2) * (y1.eval env - y2.eval env)) /
        (dE x1 y1 x2 y2 x3 y3).eval env := by
  rw [uxE, Expr.eval]
  congr 1
  simp [uxNumE, Expr.eval]
  ring

theorem uyE_eval {V : Type} (env : V → ℝ) (x1 y1 x2 y2 x3 y3 : Expr V) :
    (uyE x1 y1 x2 y2 x3 y3).eval env =
      ((x1.eval env ^ 2 + y1.eval env ^ 2) * (x3.eval env - x2.eval env) +
       (x2.eval env ^ 2 + y2.eval env ^ 2) * (x1.eval env - x3.eval env) +
       (x3.eval env ^ 2 + y3.eval env ^ 2) * (x2.eval env - x1.eval env)) /
        (dE x1 y1 x2 y2 x3 y3).eval env := by
  rw [uyE, Expr.eval]
  congr 1
  simp [uyNumE, Expr.eval]
  ring

theorem circumradiusE_eval {V : Type} (env : V → ℝ) (x1 y1 x2 y2 x3 y3 : Expr V) :
    (circumradiusE x1 y1 x2 y2 x3 y3).eval env =
      Real.sqrt (((uxE x1 y1 x2 y2 x3 y3).eval env - x1.eval env) ^ 2 +
                 ((uyE x1 y1 x2 y2 x3 y3).eval env - y1.eval env) ^ 2) := by
  rw [circumradiusE, vdistE]
  simp only [Expr.eval]
  congr 1
  ring

end Circumcircle

/-- C1: the circumcircle style rule builds exactly the determinant-based
circumcenter algorithm: for every triple of input coordinate expressions and
every assignment of real values to the input slots, the constructed trees for
`d`, `ux`, `uy` evaluate to
`D = 2·(x1(y2−y3) + x2(y3−y1) + x3(y1−y2))`,
`ux = ((x1²+y1²)(y2−y3) + (x2²+y2²)(y3−y1) + (x3²+y3²)(y1−y2)) / D`,
`uy = ((x1²+y1²)(x3−x2) + (x2²+y2²)(x1−x3) + (x3²+y3²)(x2−x1)) / D`,
and the radius tree evaluates to the Euclidean distance from `(ux, uy)` to the
first input point. -/
theorem circumcircle_implements_determinant_formula {V : Type} (env : V → ℝ)
    (x1 y1 x2 y2 x3 y3 : Expr V) :
    (Circumcircle.dE x1 y1 x2 y2 x3 y3).eval env =
      2 * (x1.eval env * (y2.eval env - y3.eval env) +
           x2.eval env * (y3.eval env - y1.eval env) +
           x3.eval env * (y1.eval env - y2.eval env)) ∧
    (Circumcircle.uxE x1 y1 x2 y2 x3 y3).eval env =
      ((x1.eval env ^ 2 + y1.eval env ^ 2) * (y2.eval env - y3.eval env) +
       (x2.eval env ^ 2 + y2.eval env ^ 2) * (y3.eval env - y1.eval env) +
       (x3.eval env ^ 2 + y3.eval env ^ 2) * (y1.eval env - y2.eval env)) /
        (Circumcircle.dE x1 y1 x2 y2 x3 y3).eval env ∧
    (Circumcircle.uyE x1 y1 x2 y2 x3 y3).eval env =
      ((x1.eval env ^ 2 + y1.eval env ^ 2) * (x3.eval env - x2.eval env) +
       (x2.eval env ^ 2 + y2.eval env ^ 2) * (x1.eval env - x3.eval env) +
       (x3.eval env ^ 2 + y3.eval env ^ 2) * (x2.eval env - x1.eval env)) /
        (Circumcircle.dE x1 y1 x2 y2 x3 y3).eval env ∧
    (Circumcircle.circumradiusE x1 y1 x2 y2 x3 y3).eval env =
      Real.sqrt (((Circumcircle.uxE x1 y1 x2 y2 x3 y3).eval env - x1.eval env) ^ 2 +
                 ((Circumcircle.uyE x1 y1 x2 y2 x3 y3).eval env - y1.eval env) ^ 2) :=
  ⟨Circumcircle.dE_eval env x1 y1 x2 y2 x3 y3,
   Circumcircle.uxE_eval env x1 y1 x2 y2 x3 y3,
   Circumcircle.uyE_eval env x1 y1 x2 y2 x3 y3,
   Circumcircle.circumradiusE_eval env x1 y1 x2 y2 x3 y3⟩

/-- C2: for every three non-collinear input points, the point `(ux, uy)`
computed by the circumcircle rule is equidistant (in exact real arithmetic)
from all three input points. -/
theorem circumcircle_center_equidistant {V : Type} (env : V → ℝ)
    (x1 y1 x2 y2 x3 y3 : Expr V)
    (h : ¬ collinearPts (x1.eval env) (y1.eval env) (x2.eval env) (y2.eval env)
          (x3.eval env) (y3.eval env)) :
    Real.sqrt (((Circumcircle.uxE x1 y1 x2 y2 x3 y3).eval env - x1.eval env) ^ 2 +
               ((Circumcircle.uyE x1 y1 x2 y2 x3 y3).eval env - y1.eval env) ^ 2) =
      Real.sqrt (((Circumcircle.uxE x1 y1 x2 y2 x3 y3).eval env - x2.eval env) ^ 2 +
                 ((Circumcircle.uyE x1 y1 x2 y2 x3 y3).eval env - y2.eval env) ^ 2) ∧
    Real.sqrt (((Circumcircle.uxE x1 y1 x2 y2 x3 y3).eval env - x1.eval env) ^ 2 +
               ((Circumcircle.uyE x1 y1 x2 y2 x3 y3).eval env - y1.eval env) ^ 2) =
      Real.sqrt (((Circumcircle.uxE x1 y1 x2 y2 x3 y3).eval env - x3.eval env) ^ 2 +
                 ((Circumcircle.uyE x1 y1 x2 y2 x3 y3).eval env - y3.eval env) ^ 2) := by
  have hS : x1.eval env * (y2.eval env - y3.eval env) +
      x2.eval env * (y3.eval env - y1.eval env) +
      x3.eval env * (y1.eval env - y2.eval env) ≠ 0 := by
    intro h0
    exact h (by unfold collinearPts; linear_combination h0)
  have hux := Circumcircle.uxE_eval env x1 y1 x2 y2 x3 y3
  have huy := Circumcircle.uyE_eval env x1 y1 x2 y2 x3 y3
  have hd := Circumcircle.dE_eval env x1 y1 x2 y2 x3 y3
  rw [hd] at hux huy
  rw [hux, huy]
  constructor
  · congr 1
    field_simp
    ring
  · congr 1
    field_simp
    ring

/-- Witness for C2 at the concrete non-collinear triple
`(0,0), (2,0), (0,2)`. -/
theorem circumcircle_center_equidistant_witness :
    (¬ collinearPts ((Expr.const 0 : Expr Unit).eval (fun _ => 0))
        ((Expr.const 0 : Expr Unit).eval (fun _ => 0))
        ((Expr.const 2 : Expr Unit).eval (fun _ => 0))
        ((Expr.const 0 : Expr Unit).eval (fun _ => 0))
        ((Expr.const 0 : Expr Unit).eval (fun _ => 0))
        ((Expr.const 2 : Expr Unit).eval (fun _ => 0))) ∧
    (Real.sqrt (((Circumcircle.uxE (Expr.const 0) (Expr.const 0) (Expr.const 2)
        (Expr.const 0) (Expr.const 0) (Expr.const 2)).eval (fun _ : Unit => (0 : ℝ)) -
        (Expr.const 0 : Expr Unit).eval (fun _ => 0)) ^ 2 +
      ((Circumcircle.uyE (Expr.const 0) (Expr.const 0) (Expr.const 2)
        (Expr.const 0) (Expr.const 0) (Expr.const 2)).eval (fun _ : Unit => (0 : ℝ)) -
        (Expr.const 0 : Expr Unit).eval (fun _ => 0)) ^ 2) =
      Real.sqrt (((Circumcircle.uxE (Expr.const 0) (Expr.const 0) (Expr.const 2)
        (Expr.const 0) (Expr.const 0) (Expr.const 2)).eval (fun _ : Unit => (0 : ℝ)) -
        (Expr.const 2 : Expr Unit).eval (fun _ => 0)) ^ 2 +
      ((Circumcircle.uyE (Expr.const 0) (Expr.const 0) (Expr.const 2)
        (Expr.const 0) (Expr.const 0) (Expr.const 2)).eval (fun _ : Unit => (0 : ℝ)) -
        (Expr.const 0 : Expr Unit).eval (fun _ => 0)) ^ 2)) :=
  ⟨by simp [collinearPts, Expr.eval],
   (circumcircle_center_equidistant (fun _ : Unit => (0 : ℝ))
      (Expr.const 0) (Expr.const 0) (Expr.const 2) (Expr.const 0)
      (Expr.const 0) (Expr.const 2)
      (by simp [collinearPts, Expr.eval])).1⟩

/-- C5: for every collinear triple of input points the denominator `d` built
by the circumcircle rule evaluates to zero, and since `ux` and `uy` are bare
divisions by `d` (no guard exists in the rule), neither evaluates to a
well-defined value: the division-by-zero branch is reached. -/
theorem circumcircle_collinear_divides_by_zero {V : Type} (env : V → ℝ)
    (x1 y1 x2 y2 x3 y3 : Expr V)
    (h : collinearPts (x1.eval env) (y1.eval env) (x2.eval env) (y2.eval env)
          (x3.eval env) (y3.eval env)) :
    (Circumcircle.dE x1 y1 x2 y2 x3 y3).eval env = 0 ∧
    ¬ (Circumcircle.uxE x1 y1 x2 y2 x3 y3).WF env ∧
    ¬ (Circumcircle.uyE x1 y1 x2 y2 x3 y3).WF env := by
  have hd0 : (Circumcircle.dE x1 y1 x2 y2 x3 y3).eval env = 0 := by
    rw [Circumcircle.dE_eval]
    unfold collinearPts at h
    linear_combination 2 * h
  refine ⟨hd0, ?_, ?_⟩
  · intro hwf
    rw [Circumcircle.uxE] at hwf
    simp only [Expr.WF] at hwf
    exact hwf.2.2 hd0
  · intro hwf
    rw [Circumcircle.uyE] at hwf
    simp only [Expr.WF] at hwf
    exact hwf.2.2 hd0

/-- Witness for C5 at the concrete collinear triple `(0,0), (1,1), (2,2)`. -/
theorem circumcircle_collinear_divides_by_zero_witness :
    (collinearPts ((Expr.const 0 : Expr Unit).eval (fun _ => 0))
        ((Expr.const 0 : Expr Unit).eval (fun _ => 0))
        ((Expr.const 1 : Expr Unit).eval (fun _ => 0))
        ((Expr.const 1 : Expr Unit).eval (fun _ => 0))
        ((Expr.const 2 : Expr Unit).eval (fun _ => 0))
        ((Expr.const 2 : Expr Unit).eval (fun _ => 0))) ∧
    ((Circumcircle.dE (Expr.const 0) (Expr.const 0) (Expr.const 1) (Expr.const 1)
        (Expr.const 2) (Expr.const 2)).eval (fun _ : Unit => (0 : ℝ)) = 0 ∧
     ¬ (Circumcircle.uxE (Expr.const 0) (Expr.const 0) (Expr.const 1) (Expr.const 1)
        (Expr.const 2) (Expr.const 2)).WF (fun _ : Unit => (0 : ℝ)) ∧
     ¬ (Circumcircle.uyE (Expr.const 0) (Expr.const 0) (Expr.const 1) (Expr.const 1)
        (Expr.const 2) (Expr.const 2)).WF (fun _ : Unit => (0 : ℝ))) :=
  ⟨by simp [collinearPts, Expr.eval],
   circumcircle_collinear_divides_by_zero (fun _ : Unit => (0 : ℝ))
     (Expr.const 0) (Expr.const 0) (Expr.const 1) (Expr.const 1)
     (Expr.const 2) (Expr.const 2)
     (by simp [collinearPts, Expr.eval])⟩

/-! ## The eigenspace lines (eigenvector diagram module)

The eigenvector diagram reads the basis-vector columns `(a, c)` and `(b, d)`
and builds the two eigenspace direction vectors `el1.vec` and `el2.vec` with
the exact operation nesting below. -/

namespace Eigen

variable {V : Type}

/-- The square-root argument built in the source:
`bloom.add(bloom.add(bloom.add(bloom.mul(a,a), bloom.mul(4, bloom.mul(b,c))), bloom.mul(-2, bloom.mul(a,d))), bloom.mul(d,d))`. -/
def discE (a b c d : Expr V) : Expr V :=
  .add (.add (.add (.mul a a) (.mul (.const 4) (.mul b c)))
        (.mul (.const (-2)) (.mul a d)))
    (.mul d d)

/-- The first component of the first eigenspace direction before
normalization:
`bloom.div(bloom.mul(-1, bloom.add(bloom.add(bloom.mul(-1, a), d), bloom.sqrt(disc))), bloom.mul(2, c))`. -/
def el1xE (a b c d : Expr V) : Expr V :=
  .div (.mul (.const (-1))
      (.add (.add (.mul (.const (-1)) a) d) (.sqrt (discE a b c d))))
    (.mul (.const 2) c)

/-- The first component of the second eigenspace direction before
normalization: as `el1xE` but with the square root multiplied by `-1`. -/
def el2xE (a b c d : Expr V) : Expr V :=
  .div (.mul (.const (-1))
      (.add (.add (.mul (.const (-1)) a) d)
        (.mul (.const (-1)) (.sqrt (discE a b c d)))))
    (.mul (.const 2) c)

/-- `substance.el1.vec = bloom.ops.vnormalize([el1x, 1])`. -/
def el1E (a b c d : Expr V) : Expr V × Expr V :=
  vnormalizeE (el1xE a b c d) (.const 1)

/-- `substance.el2.vec = bloom.ops.vnormalize([el2x, 1])`. -/
def el2E (a b c d : Expr V) : Expr V × Expr V :=
  vnormalizeE (el2xE a b c d) (.const 1)

theorem discE_eval (env : V → ℝ) (a b c d : Expr V) :
    (discE a b c d).eval env =
      (a.eval env - d.eval env) ^ 2 + 4 * b.eval env * c.eval env := by
  simp [discE, Expr.eval]
  ring

theorem el1xE_eval (env : V → ℝ) (a b c d : Expr V) :
    (el1xE a b c d).eval env =
      (a.eval env - d.eval env -
        Real.sqrt ((a.eval env - d.eval env) ^ 2 + 4 * b.eval env * c.eval env)) /
      (2 * c.eval env) := by
  rw [el1xE]
  simp only [Expr.eval, discE_eval]
  push_cast
  ring_nf

theorem el2xE_eval (env : V → ℝ) (a b c d : Expr V) :
    (el2xE a b c d).eval env =
      (a.eval env - d.eval env +
        Real.sqrt ((a.eval env - d.eval env) ^ 2 + 4 * b.eval env * c.eval env)) /
      (2 * c.eval env) := by
  rw [el2xE]
  simp only [Expr.eval, discE_eval]
  push_cast
  ring_nf

theorem el1E_fst_eval (env : V → ℝ) (a b c d : Expr V) :
    (el1E a b c d).1.eval env =
      (el1xE a b c d).eval env /
        Real.sqrt ((el1xE a b c d).eval env * (el1xE a b c d).eval env + 1) := by
  simp only [el1E, vnormalizeE, Expr.eval]
  norm_num

theorem el1E_snd_eval (env : V → ℝ) (a b c d : Expr V) :
    (el1E a b c d).2.eval env =
      1 / Real.sqrt ((el1xE a b c d).eval env * (el1xE a b c d).eval env + 1) := by
  simp only [el1E, vnormalizeE, Expr.eval]
  norm_num

theorem el2E_fst_eval (env : V → ℝ) (a b c d : Expr V) :
    (el2E a b c d).1.eval env =
      (el2xE a b c d).eval env /
        Real.sqrt ((el2xE a b c d).eval env * (el2xE a b c d).eval env + 1) := by
  simp only [el2E, vnormalizeE, Expr.eval]
  norm_num

theorem el2E_snd_eval (env : V → ℝ) (a b c d : Expr V) :
    (el2E a b c d).2.eval env =
      1 / Real.sqrt ((el2xE a b c d).eval env * (el2xE a b c d).eval env + 1) := by
  simp only [el2E, vnormalizeE, Expr.eval]
  norm_num

end Eigen

/-- Normalization of a 2-D real vector: each component divided by the
Euclidean norm. -/
noncomputable def normalize2 (x y : ℝ) : ℝ × ℝ :=
  (x / Real.sqrt (x * x + y * y), y / Real.sqrt (x * x + y * y))

/-- Modelled from the spec: the eigen-direction the spec's words describe,
`normalize([ (d−a + √((a−d)²+4bc)) / (2c), 1 ])` for the first eigenspace
line (`+` before the square root).  Stated for comparison against the code's
construction. -/
noncomputable def el1SpecDir (a b c d : ℝ) : ℝ × ℝ :=
  normalize2 ((d - a + Real.sqrt ((a - d) ^ 2 + 4 * b * c)) / (2 * c)) 1

/-- Modelled from the spec: the spec's second eigen-direction,
`normalize([ (d−a − √((a−d)²+4bc)) / (2c), 1 ])` (`−` before the square
root). -/
noncomputable def el2SpecDir (a b c d : ℝ) : ℝ × ℝ :=
  normalize2 ((d - a - Real.sqrt ((a - d) ^ 2 + 4 * b * c)) / (2 * c)) 1

/-- C3 counterexample: for the concrete map with basis-vector columns
`(0, 1)` and `(1, 0)`, the code builds the first eigenspace direction
`normalize([-1, 1])` (first component `-1/√2`), while the claim's formula
`normalize([ (d−a + √((a−d)²+4bc))/(2c), 1 ])` gives `normalize([1, 1])`
(first component `1/√2`): the two differ. -/
theorem eigen_el1_sign_counterexample :
    (Eigen.el1E (Expr.const 0) (Expr.const 1) (Expr.const 1) (Expr.const 0)
        : Expr Unit × Expr Unit).1.eval (fun _ => 0) ≠
      (el1SpecDir 0 1 1 0).1 := by
  have h4 : Real.sqrt (4 : ℝ) = 2 := by
    rw [show (4 : ℝ) = 2 ^ 2 by norm_num, Real.sqrt_sq (by norm_num : (0:ℝ) ≤ 2)]
  have hW : (Eigen.el1xE (Expr.const 0) (Expr.const 1) (Expr.const 1) (Expr.const 0)
      : Expr Unit).eval (fun _ => 0) = -1 := by
    rw [Eigen.el1xE_eval]
    simp only [Expr.eval]
    norm_num [h4]
  have hfst : (Eigen.el1E (Expr.const 0) (Expr.const 1) (Expr.const 1) (Expr.const 0)
      : Expr Unit × Expr Unit).1.eval (fun _ => 0) = -(1 / Real.sqrt 2) := by
    rw [Eigen.el1E_fst_eval, hW]
    norm_num [one_div, neg_div]
  have hspec : (el1SpecDir 0 1 1 0).1 = 1 / Real.sqrt 2 := by
    unfold el1SpecDir normalize2
    norm_num [h4]
  rw [hfst, hspec]
  have h2 : (0:ℝ) < 1 / Real.sqrt 2 := by positivity
  intro heq
  linarith [heq, h2]

/-- C3 (amended): for every input, the eigen-line computation builds each
eigenvector direction as `normalize([ (a−d ∓ √((a−d)²+4bc)) / (2c), 1 ])`
with the second component fixed at 1 before normalization: the first
eigenspace line uses `−` before the square root and the second uses `+`
(the negation, in the first component, of the `(d−a ± √…)/(2c)` the spec's
words give). -/
theorem eigen_lines_build_normalized_directions {V : Type} (env : V → ℝ)
    (a b c d : Expr V) :
    ((Eigen.el1E a b c d).1.eval env, (Eigen.el1E a b c d).2.eval env) =
      normalize2 ((a.eval env - d.eval env -
        Real.sqrt ((a.eval env - d.eval env) ^ 2 + 4 * b.eval env * c.eval env)) /
        (2 * c.eval env)) 1 ∧
    ((Eigen.el2E a b c d).1.eval env, (Eigen.el2E a b c d).2.eval env) =
      normalize2 ((a.eval env - d.eval env +
        Real.sqrt ((a.eval env - d.eval env) ^ 2 + 4 * b.eval env * c.eval env)) /
        (2 * c.eval env)) 1 := by
  unfold normalize2
  constructor
  · rw [Prod.mk.injEq]
    constructor
    · rw [Eigen.el1E_fst_eval, Eigen.el1xE_eval]
      norm_num
    · rw [Eigen.el1E_snd_eval, Eigen.el1xE_eval]
      norm_num
  · rw [Prod.mk.injEq]
    constructor
    · rw [Eigen.el2E_fst_eval, Eigen.el2xE_eval]
      norm_num
    · rw [Eigen.el2E_snd_eval, Eigen.el2xE_eval]
      norm_num

/-- Applying the linear map whose basis-vector columns are `(a, c)` and
`(b, d)` (the map sending `(1,0) ↦ (a,c)` and `(0,1) ↦ (b,d)`) to the
vector `(x, y)`. -/
noncomputable def applyMap (a b c d x y : ℝ) : ℝ × ℝ :=
  (a * x + b * y, c * x + d * y)

/-- The code's first pre-normalization component `(A−D−s)/(2C)` is a root of
the quadratic `C·t² + (D−A)·t − B` whenever `s² = (A−D)² + 4BC`. -/
theorem eigen_root_neg (A B C D s : ℝ) (hc : C ≠ 0)
    (hs : s ^ 2 = (A - D) ^ 2 + 4 * B * C) :
    C * ((A - D - s) / (2 * C)) ^ 2 + (D - A) * ((A - D - s) / (2 * C)) - B = 0 := by
  field_simp
  linear_combination 2 * C ^ 2 * hs

/-- As `eigen_root_neg`, for the `+` branch `(A−D+s)/(2C)`. -/
theorem eigen_root_pos (A B C D s : ℝ) (hc : C ≠ 0)
    (hs : s ^ 2 = (A - D) ^ 2 + 4 * B * C) :
    C * ((A - D + s) / (2 * C)) ^ 2 + (D - A) * ((A - D + s) / (2 * C)) - B = 0 := by
  field_simp
  linear_combination 2 * C ^ 2 * hs

/-- If `w` is a root of `C·t² + (D−A)·t − B` then the normalized vector
`(w/√(w²+1), 1/√(w²+1))` is mapped by the matrix to `(C·w + D)` times
itself. -/
theorem applyMap_root (A B C D w : ℝ)
    (hw : C * w ^ 2 + (D - A) * w - B = 0) :
    applyMap A B C D (w / Real.sqrt (w * w + 1)) (1 / Real.sqrt (w * w + 1)) =
      ((C * w + D) * (w / Real.sqrt (w * w + 1)),
       (C * w + D) * (1 / Real.sqrt (w * w + 1))) := by
  unfold applyMap
  have hnum : A * w + B = (C * w + D) * w := by linear_combination (-1 : ℝ) * hw
  rw [Prod.mk.injEq]
  constructor
  · linear_combination (1 / Real.sqrt (w * w + 1)) * hnum
  · ring

/-- C4: for every 2×2 linear map with basis-vector columns `(a,c)` and
`(b,d)` that has real distinct eigenvalues (`(a−d)² + 4bc > 0`) and `c ≠ 0`,
applying the map to either of the two eigen-line direction vectors built by
the code yields a scalar multiple of that direction (no rotation). -/
theorem eigen_directions_are_eigenvectors {V : Type} (env : V → ℝ)
    (a b c d : Expr V)
    (hdisc : 0 < (a.eval env - d.eval env) ^ 2 + 4 * b.eval env * c.eval env)
    (hc : c.eval env ≠ 0) :
    (∃ k : ℝ,
      applyMap (a.eval env) (b.eval env) (c.eval env) (d.eval env)
          ((Eigen.el1E a b c d).1.eval env) ((Eigen.el1E a b c d).2.eval env) =
        (k * (Eigen.el1E a b c d).1.eval env,
         k * (Eigen.el1E a b c d).2.eval env)) ∧
    (∃ k : ℝ,
      applyMap (a.eval env) (b.eval env) (c.eval env) (d.eval env)
          ((Eigen.el2E a b c d).1.eval env) ((Eigen.el2E a b c d).2.eval env) =
        (k * (Eigen.el2E a b c d).1.eval env,
         k * (Eigen.el2E a b c d).2.eval env)) := by
  have hs : Real.sqrt ((a.eval env - d.eval env) ^ 2 + 4 * b.eval env * c.eval env) ^ 2 =
      (a.eval env - d.eval env) ^ 2 + 4 * b.eval env * c.eval env :=
    Real.sq_sqrt hdisc.le
  constructor
  · refine ⟨c.eval env * (Eigen.el1xE a b c d).eval env + d.eval env, ?_⟩
    rw [Eigen.el1E_fst_eval, Eigen.el1E_snd_eval, Eigen.el1xE_eval]
    exact applyMap_root _ _ _ _ _
      (eigen_root_neg (a.eval env) (b.eval env) (c.eval env) (d.eval env) _ hc hs)
  · refine ⟨c.eval env * (Eigen.el2xE a b c d).eval env + d.eval env, ?_⟩
    rw [Eigen.el2E_fst_eval, Eigen.el2E_snd_eval, Eigen.el2xE_eval]
    exact applyMap_root _ _ _ _ _
      (eigen_root_pos (a.eval env) (b.eval env) (c.eval env) (d.eval env) _ hc hs)

/-- Witness for C4 at the concrete map with columns `(0, 1)` and `(1, 0)`
(discriminant `4 > 0`, `c = 1 ≠ 0`). -/
theorem eigen_directions_are_eigenvectors_witness :
    ((0:ℝ) < ((Expr.const 0 : Expr Unit).eval (fun _ => 0) -
        (Expr.const 0 : Expr Unit).eval (fun _ => 0)) ^ 2 +
        4 * (Expr.const 1 : Expr Unit).eval (fun _ => 0) *
          (Expr.const 1 : Expr Unit).eval (fun _ => 0) ∧
     (Expr.const 1 : Expr Unit).eval (fun _ => 0) ≠ 0) ∧
    ((∃ k : ℝ,
      applyMap ((Expr.const 0 : Expr Unit).eval (fun _ => 0))
          ((Expr.const 1 : Expr Unit).eval (fun _ => 0))
          ((Expr.const 1 : Expr Unit).eval (fun _ => 0))
          ((Expr.const 0 : Expr Unit).eval (fun _ => 0))
          ((Eigen.el1E (Expr.const 0) (Expr.const 1) (Expr.const 1) (Expr.const 0)
            : Expr Unit × Expr Unit).1.eval (fun _ => 0))
          ((Eigen.el1E (Expr.const 0) (Expr.const 1) (Expr.const 1) (Expr.const 0)
            : Expr Unit × Expr Unit).2.eval (fun _ => 0)) =
        (k * (Eigen.el1E (Expr.const 0) (Expr.const 1) (Expr.const 1) (Expr.const 0)
            : Expr Unit × Expr Unit).1.eval (fun _ => 0),
         k * (Eigen.el1E (Expr.const 0) (Expr.const 1) (Expr.const 1) (Expr.const 0)
            : Expr Unit × Expr Unit).2.eval (fun _ => 0))) ∧
     (∃ k : ℝ,
      applyMap ((Expr.const 0 : Expr Unit).eval (fun _ => 0))
          ((Expr.const 1 : Expr Unit).eval (fun _ => 0))
          ((Expr.const 1 : Expr Unit).eval (fun _ => 0))
          ((Expr.const 0 : Expr Unit).eval (fun _ => 0))
          ((Eigen.el2E (Expr.const 0) (Expr.const 1) (Expr.const 1) (Expr.const 0)
            : Expr Unit × Expr Unit).1.eval (fun _ => 0))
          ((Eigen.el2E (Expr.const 0) (Expr.const 1) (Expr.const 1) (Expr.const 0)
            : Expr Unit × Expr Unit).2.eval (fun _ => 0)) =
        (k * (Eigen.el2E (Expr.const 0) (Expr.const 1) (Expr.const 1) (Expr.const 0)
            : Expr Unit × Expr Unit).1.eval (fun _ => 0),
         k * (Eigen.el2E (Expr.const 0) (Expr.const 1) (Expr.const 1) (Expr.const 0)
            : Expr Unit × Expr Unit).2.eval (fun _ => 0)))) :=
  ⟨⟨by norm_num [Expr.eval], by norm_num [Expr.eval]⟩,
   eigen_directions_are_eigenvectors (fun _ : Unit => (0 : ℝ))
     (Expr.const 0) (Expr.const 1) (Expr.const 1) (Expr.const 0)
     (by norm_num [Expr.eval]) (by norm_num [Expr.eval])⟩

theorem Expr.WF.div_left {V : Type} {env : V → ℝ} {e₁ e₂ : Expr V}
    (h : (Expr.div e₁ e₂).WF env) : e₁.WF env := h.1

theorem Expr.WF.div_den_ne {V : Type} {env : V → ℝ} {e₁ e₂ : Expr V}
    (h : (Expr.div e₁ e₂).WF env) : e₂.eval env ≠ 0 := h.2.2

theorem Expr.WF.mul_right {V : Type} {env : V → ℝ} {e₁ e₂ : Expr V}
    (h : (Expr.mul e₁ e₂).WF env) : e₂.WF env := h.2

theorem Expr.WF.add_right {V : Type} {env : V → ℝ} {e₁ e₂ : Expr V}
    (h : (Expr.add e₁ e₂).WF env) : e₂.WF env := h.2

theorem Expr.WF.sqrt_arg_nonneg {V : Type} {env : V → ℝ} {e : Expr V}
    (h : (Expr.sqrt e).WF env) : 0 ≤ e.eval env := h.2

/-- C9: the eigen-line expressions carry no guard for their degenerate
inputs.  For the map with columns `(0, 1)` and `(-1, 0)` (a rotation —
complex eigenvalues) the square-root argument evaluates to `-4 < 0` and
neither direction expression is well-defined; and for a map with `c = 0`
(columns `(1, 0)` and `(0, 2)`) the division by `2c` is a division by zero,
so the first direction expression is again not well-defined. -/
theorem eigen_unguarded_degenerate_inputs :
    ((Eigen.discE (Expr.const 0) (Expr.const (-1)) (Expr.const 1) (Expr.const 0)
        : Expr Unit).eval (fun _ => 0) < 0 ∧
     ¬ (Eigen.el1E (Expr.const 0) (Expr.const (-1)) (Expr.const 1) (Expr.const 0)
        : Expr Unit × Expr Unit).1.WF (fun _ => 0) ∧
     ¬ (Eigen.el2E (Expr.const 0) (Expr.const (-1)) (Expr.const 1) (Expr.const 0)
        : Expr Unit × Expr Unit).1.WF (fun _ => 0)) ∧
    ¬ (Eigen.el1E (Expr.const 1) (Expr.const 0) (Expr.const 0) (Expr.const 2)
        : Expr Unit × Expr Unit).1.WF (fun _ => 0) := by
  refine ⟨⟨?_, ?_, ?_⟩, ?_⟩
  · rw [Eigen.discE_eval]
    norm_num [Expr.eval]
  · intro h
    simp only [Eigen.el1E, vnormalizeE] at h
    have h1 := h.div_left
    simp only [Eigen.el1xE] at h1
    have h2 := h1.div_left.mul_right.add_right.sqrt_arg_nonneg
    rw [Eigen.discE_eval] at h2
    norm_num [Expr.eval] at h2
  · intro h
    simp only [Eigen.el2E, vnormalizeE] at h
    have h1 := h.div_left
    simp only [Eigen.el2xE] at h1
    have h2 := h1.div_left.mul_right.add_right.mul_right.sqrt_arg_nonneg
    rw [Eigen.discE_eval] at h2
    norm_num [Expr.eval] at h2
  · intro h
    simp only [Eigen.el1E, vnormalizeE] at h
    have h1 := h.div_left
    simp only [Eigen.el1xE] at h1
    have h2 := h1.div_den_ne
    norm_num [Expr.eval] at h2

/-! ## The `useDiagram` hook

`useDiagram(buildFn)` holds React state `diagram : Diagram | null`, initially
null.  Its effect — re-run on mount and on every change of `buildFn`'s
identity — captures a fresh local `cancelled = false` flag, synchronously
calls `setDiagram(null)`, awaits `buildFn()`, and then writes the result
(or `null`, in the `catch` branch) only if `cancelled` is still false; the
effect's cleanup, run when `buildFn` changes again or the component
unmounts, sets `cancelled = true`.

We model the externally observable events of an execution and fold the
hook's reaction over a state carrying the React state value, the number of
effect runs so far (each run launches one build, numbered from 0), and each
build's `cancelled` flag. -/

/-- An event in an execution of a component using `useDiagram`; `α` is the
type of built diagram values.  `start` is a mount or a change of the build
function's identity; `resolve b d` / `reject b` are the settlement of build
`b`'s promise. -/
inductive Event (α : Type) : Type
  | start : Event α
  | unmount : Event α
  | resolve : Nat → α → Event α
  | reject : Nat → Event α

/-- The hook-relevant state: the `diagram` React state, the number of builds
launched so far, and the `cancelled` flag of each build.  Flags of builds
not yet launched are kept `true`: a build that does not exist never writes
state. -/
structure HookState (α : Type) : Type where
  diagram : Option α
  launched : Nat
  cancelled : Nat → Bool

/-- Initial state: null diagram, no build launched. -/
def HookState.init (α : Type) : HookState α :=
  { diagram := none, launched := 0, cancelled := fun _ => true }

/-- One event's effect on the hook state, following the source line by line:

* `start`: React first runs the previous effect's cleanup
  (`cancelled = true` for build `launched − 1`), then the new effect body
  runs `setDiagram(null)` and launches build `launched` with a fresh
  `cancelled = false`;
* `unmount`: the current effect's cleanup runs, nothing else;
* `resolve b d`: the `await` returns and `if (!cancelled) setDiagram(built)`;
* `reject b`: the `catch` logs and `if (!cancelled) setDiagram(null)` —
  no new build is started. -/
def HookState.step (s : HookState α) : Event α → HookState α
  | .start =>
      { diagram := none
        launched := s.launched + 1
        cancelled := fun i =>
          if i = s.launched then false
          else if i + 1 = s.launched then true
          else s.cancelled i }
  | .unmount =>
      { s with cancelled := fun i => if i + 1 = s.launched then true else s.cancelled i }
  | .resolve b d => if s.cancelled b then s else { s with diagram := some d }
  | .reject b => if s.cancelled b then s else { s with diagram := none }

/-- The hook state reached from mount-less initial state by a sequence of
events. -/
def runHook {α : Type} (t : List (Event α)) : HookState α :=
  t.foldl HookState.step (HookState.init α)

theorem runHook_append {α : Type} (xs ys : List (Event α)) :
    runHook (xs ++ ys) = ys.foldl HookState.step (runHook xs) := by
  simp [runHook, List.foldl_append]

/-- Only the most recently launched build can have its `cancelled` flag
still false. -/
def HookInv (s : HookState α) : Prop :=
  ∀ i, s.cancelled i = false → i + 1 = s.launched

theorem HookInv.step {α : Type} {s : HookState α} (h : HookInv s) (e : Event α) :
    HookInv (s.step e) := by
  cases e with
  | start =>
      intro i hi
      simp only [HookState.step] at hi ⊢
      by_cases h1 : i = s.launched
      · omega
      · rw [if_neg h1] at hi
        by_cases h2 : i + 1 = s.launched
        · rw [if_pos h2] at hi; cases hi
        · rw [if_neg h2] at hi
          exact absurd (h i hi) h2
  | unmount =>
      intro i hi
      simp only [HookState.step] at hi ⊢
      by_cases h2 : i + 1 = s.launched
      · rw [if_pos h2] at hi; cases hi
      · rw [if_neg h2] at hi; exact h i hi
  | resolve b d =>
      intro i hi
      by_cases hcb : s.cancelled b = true <;>
        simp only [HookState.step, hcb, if_true, if_false, Bool.false_eq_true] at hi ⊢ <;>
        exact h i hi
  | reject b =>
      intro i hi
      by_cases hcb : s.cancelled b = true <;>
        simp only [HookState.step, hcb, if_true, if_false, Bool.false_eq_true] at hi ⊢ <;>
        exact h i hi

theorem runHook_inv {α : Type} (t : List (Event α)) : HookInv (runHook t) := by
  suffices h : ∀ s : HookState α, HookInv s → HookInv (t.foldl HookState.step s) by
    refine h _ ?_
    intro i hi
    simp [HookState.init] at hi
  induction t with
  | nil => intro s hs; exact hs
  | cons e t ih => intro s hs; exact ih _ (hs.step e)

/-- A launched build's `cancelled` flag, once true, stays true under any
further events, and `launched` never shrinks. -/
theorem step_preserves_cancelled {α : Type} (s : HookState α) (e : Event α) (b : Nat)
    (hb : b < s.launched) (hc : s.cancelled b = true) :
    b < (s.step e).launched ∧ (s.step e).cancelled b = true := by
  cases e with
  | start =>
      refine ⟨by simp only [HookState.step]; omega, ?_⟩
      simp only [HookState.step]
      rw [if_neg (by omega)]
      by_cases h2 : b + 1 = s.launched
      · rw [if_pos h2]
      · rw [if_neg h2]; exact hc
  | unmount =>
      refine ⟨hb, ?_⟩
      simp only [HookState.step]
      by_cases h2 : b + 1 = s.launched
      · rw [if_pos h2]
      · rw [if_neg h2]; exact hc
  | resolve b' d =>
      by_cases hcb : s.cancelled b' = true <;>
        simp only [HookState.step, hcb, if_true, if_false, Bool.false_eq_true] <;>
        exact ⟨hb, hc⟩
  | reject b' =>
      by_cases hcb : s.cancelled b' = true <;>
        simp only [HookState.step, hcb, if_true, if_false, Bool.false_eq_true] <;>
        exact ⟨hb, hc⟩

theorem cancelled_persists {α : Type} (t : List (Event α)) (s : HookState α) (b : Nat)
    (hb : b < s.launched) (hc : s.cancelled b = true) :
    b < (t.foldl HookState.step s).launched ∧
    (t.foldl HookState.step s).cancelled b = true := by
  induction t generalizing s with
  | nil => exact ⟨hb, hc⟩
  | cons e t ih =>
      have h := step_preserves_cancelled s e b hb hc
      exact ih (s.step e) h.1 h.2

/-- A `start` or `unmount` event supersedes every build launched so far:
its cleanup leaves every previously launched build's `cancelled` flag
true. -/
theorem superseded_cancelled {α : Type} (t : List (Event α)) (e : Event α) (b : Nat)
    (hb : b < (runHook t).launched) (he : e = Event.start ∨ e = Event.unmount) :
    b < ((runHook t).step e).launched ∧ ((runHook t).step e).cancelled b = true := by
  have hinv := runHook_inv t
  rcases he with rfl | rfl
  · refine ⟨by simp only [HookState.step]; omega, ?_⟩
    simp only [HookState.step]
    rw [if_neg (by omega)]
    by_cases h2 : b + 1 = (runHook t).launched
    · rw [if_pos h2]
    · rw [if_neg h2]
      cases hcb : (runHook t).cancelled b
      · exact absurd (hinv b hcb) h2
      · rfl
  · refine ⟨hb, ?_⟩
    simp only [HookState.step]
    by_cases h2 : b + 1 = (runHook t).launched
    · rw [if_pos h2]
    · rw [if_neg h2]
      cases hcb : (runHook t).cancelled b
      · exact absurd (hinv b hcb) h2
      · rfl

/-- C6: the hook never applies a stale result.  If build `b` was launched
before the build function's identity changed again (a `start`) or the
component unmounted, then `b`'s later resolution leaves the hook's state
unchanged: only the newest build's result can become the returned
diagram. -/
theorem useDiagram_no_stale_result {α : Type} (t₁ t₂ : List (Event α))
    (e : Event α) (b : Nat) (d : α)
    (hb : b < (runHook t₁).launched)
    (he : e = Event.start ∨ e = Event.unmount) :
    (runHook (t₁ ++ e :: (t₂ ++ [Event.resolve b d]))).diagram =
      (runHook (t₁ ++ e :: t₂)).diagram := by
  have hsup := superseded_cancelled t₁ e b hb he
  have hpers : b < (runHook (t₁ ++ e :: t₂)).launched ∧
      (runHook (t₁ ++ e :: t₂)).cancelled b = true := by
    rw [runHook_append, List.foldl_cons]
    exact cancelled_persists t₂ _ b hsup.1 hsup.2
  rw [show t₁ ++ e :: (t₂ ++ [Event.resolve b d]) =
        (t₁ ++ e :: t₂) ++ [Event.resolve b d] by simp]
  rw [runHook_append]
  simp [HookState.step, hpers.2]

/-- Witness for C6: build 0 is launched, a second `start` supersedes it, and
build 0's late resolution leaves the state unchanged. -/
theorem useDiagram_no_stale_result_witness :
    (0 < (runHook ([Event.start] : List (Event ℕ))).launched ∧
     ((Event.start : Event ℕ) = Event.start ∨
      (Event.start : Event ℕ) = Event.unmount)) ∧
    (runHook (([Event.start] : List (Event ℕ)) ++
        Event.start :: ([] ++ [Event.resolve 0 7]))).diagram =
      (runHook (([Event.start] : List (Event ℕ)) ++ Event.start :: [])).diagram :=
  ⟨⟨by decide, Or.inl rfl⟩,
   useDiagram_no_stale_result [Event.start] [] Event.start 0 7 (by decide)
     (Or.inl rfl)⟩

/-- C7: when the in-flight (uncancelled) build rejects, the hook's state is
null afterwards, and no new build is launched — there is no automatic
retry. -/
theorem useDiagram_reject_nulls_no_retry {α : Type} (t : List (Event α)) (b : Nat)
    (hb : (runHook t).cancelled b = false) :
    (runHook (t ++ [Event.reject b])).diagram = none ∧
    (runHook (t ++ [Event.reject b])).launched = (runHook t).launched := by
  rw [runHook_append]
  simp [HookState.step, hb]

/-- Witness for C7: the first launched build rejects; state is null and the
launch counter is unchanged. -/
theorem useDiagram_reject_nulls_no_retry_witness :
    ((runHook ([Event.start] : List (Event ℕ))).cancelled 0 = false) ∧
    ((runHook (([Event.start] : List (Event ℕ)) ++ [Event.reject 0])).diagram = none ∧
     (runHook (([Event.start] : List (Event ℕ)) ++ [Event.reject 0])).launched =
       (runHook ([Event.start] : List (Event ℕ))).launched) :=
  ⟨by decide, useDiagram_reject_nulls_no_retry [Event.start] 0 (by decide)⟩

/-- Every trailing event that is not the resolution of a build launched by
the rebuild (or later) keeps a null diagram null. -/
theorem foldl_keeps_null {α : Type} (u : List (Event α)) (L₀ : Nat) :
    ∀ s : HookState α, s.diagram = none →
    (∀ b, b < L₀ → b < s.launched ∧ s.cancelled b = true) →
    (∀ b d, Event.resolve b d ∈ u → b < L₀) →
    (u.foldl HookState.step s).diagram = none := by
  induction u with
  | nil => intro s hd _ _; exact hd
  | cons e u ih =>
      intro s hd hflags hu
      rw [List.foldl_cons]
      apply ih
      · cases e with
        | start => rfl
        | unmount => exact hd
        | resolve b d =>
            have hb := hu b d (List.mem_cons_self _ _)
            have hc := (hflags b hb).2
            simp [HookState.step, hc, hd]
        | reject b =>
            by_cases hcb : s.cancelled b = true
            · simp [HookState.step, hcb, hd]
            · simp only [HookState.step]
              rw [if_neg (by simp [hcb])]
      · intro b hb
        exact step_preserves_cancelled s e b (hflags b hb).1 (hflags b hb).2
      · intro b d hmem
        exact hu b d (List.mem_cons_of_mem _ hmem)

/-- C10: whenever the build function's identity changes (including the
initial mount), the hook synchronously resets its state to null, and the
state stays null through any following events until a build launched by
that rebuild (or later) resolves: the previous diagram is never retained
during a rebuild. -/
theorem useDiagram_rebuild_resets_to_null {α : Type} (t u : List (Event α))
    (hu : ∀ b d, Event.resolve b d ∈ u → b < (runHook t).launched) :
    (runHook (t ++ Event.start :: u)).diagram = none := by
  rw [runHook_append, List.foldl_cons]
  apply foldl_keeps_null u ((runHook t).launched)
  · rfl
  · intro b hb
    exact superseded_cancelled t Event.start b hb (Or.inl rfl)
  · exact hu

/-- Witness for C10: after a rebuild, even a stale resolution of the old
build leaves the state null. -/
theorem useDiagram_rebuild_resets_to_null_witness :
    (∀ b d, Event.resolve b d ∈ ([Event.resolve 0 9] : List (Event ℕ)) →
      b < (runHook ([Event.start] : List (Event ℕ))).launched) ∧
    (runHook (([Event.start] : List (Event ℕ)) ++
        Event.start :: [Event.resolve 0 9])).diagram = none :=
  ⟨by
    intro b d h
    rw [List.mem_singleton] at h
    injection h with h1 h2
    subst h1
    decide,
   useDiagram_rebuild_resets_to_null [Event.start] [Event.resolve 0 9]
     (by
       intro b d h
       rw [List.mem_singleton] at h
       injection h with h1 h2
       subst h1
       decide)⟩

/-! ## The geometry diagram's `On` facts
(`src/diagrams/geometry/substance.ts`)

The substance mints points `A…G` and segments, then asserts
`On(D, BC); On(E, AC); On(F, AB); On(G, AD); On(G, BE); On(G, CF)`. -/

/-- The point instances minted by the geometry substance. -/
inductive GPoint : Type
  | A | B | C | D | E | F | G
deriving DecidableEq, Fintype

/-- The segment instances minted by the geometry substance. -/
inductive GSegment : Type
  | AB | BC | AC | GF | AD | BE | CF
deriving DecidableEq, Fintype

/-- The `On` facts asserted by the geometry substance, in source order. -/
def onFacts : List (GPoint × GSegment) :=
  [(.D, .BC), (.E, .AC), (.F, .AB), (.G, .AD), (.G, .BE), (.G, .CF)]

/-- The number of `On` facts whose point is `p`. -/
def onCount (p : GPoint) : Nat :=
  (onFacts.filter (fun f => f.1 = p)).length

/-- C8 counterexample: point `G` participates in three `On` facts
(`On(G, AD)`, `On(G, BE)`, `On(G, CF)`), so it is false that every point
instance has at most one `On` fact. -/
theorem on_relates_G_to_three_carriers :
    onCount GPoint.G = 3 ∧ ¬ (∀ p : GPoint, onCount p ≤ 1) := by decide

/-- C8 (amended): in the geometry diagram's instance graph each of `D`, `E`,
`F` lies on exactly one carrier and `A`, `B`, `C` on none, but `G` — the
common point of the three altitudes — participates in three `On` facts: the
at-most-one-carrier invariant fails exactly at `G`. -/
theorem on_facts_per_point_counts :
    onCount GPoint.A = 0 ∧ onCount GPoint.B = 0 ∧ onCount GPoint.C = 0 ∧
    onCount GPoint.D = 1 ∧ onCount GPoint.E = 1 ∧ onCount GPoint.F = 1 ∧
    onCount GPoint.G = 3 := by decide
